import Mathlib

/-!
# Verification of the FFFrameReader stream cursor

Shallow embedding of the core of `FFFRStream.cpp` / `FFFRFrame.cpp`
(the `FfFrameReader::Stream` cursor): the rational rescale primitive,
the TimeMap conversions, the ping/pong peek/pop state machine, the
two-tier seek, and the total-frames / total-duration probes.

The external demuxer/decoder is modelled as an oracle (`Env`): each
call of `decodeNextBlock` consumes the next oracle entry (success flag
plus the frames it left in the pong buffer), and each demuxer-level
seek consumes the next seek result.  Machine integers are modelled as
unbounded `Int`/`Nat`; none of the verified claims depends on 64-bit
overflow behaviour.
-/

set_option autoImplicit false

namespace FFFR

/-- `AV_TIME_BASE` (libavutil): microseconds per second. -/
def AV_TIME_BASE : Nat := 1000000

/-- `AV_NOPTS_VALUE` (libavutil): `INT64_MIN`, the "no timestamp" sentinel. -/
def AV_NOPTS_VALUE : Int := -9223372036854775808

/-- `av_rescale_rnd(a, b, c, AV_ROUND_NEAR_INF)` for positive `b`, `c`:
rounds `a * b / c` to the nearest integer with halves away from zero.
For `a ≥ 0` FFmpeg computes `(a * b + c / 2) / c` in integer arithmetic;
for `a < 0` it negates the result for `-a` (the rounding mode is
self-dual under `AV_ROUND_NEAR_INF`). -/
def avRescaleRnd (a : Int) (b c : Nat) : Int :=
  if 0 ≤ a then ((a.toNat * b + c / 2) / c : Nat)
  else -(((-a).toNat * b + c / 2) / c : Nat)

/-- `av_rescale_q(a, (bn, bd), (cn, cd))`
   `= av_rescale_rnd(a, bn * cd, bd * cn, AV_ROUND_NEAR_INF)`. -/
def avRescaleQ (a : Int) (bn bd cn cd : Nat) : Int :=
  avRescaleRnd a (bn * cd) (bd * cn)

/-- The per-stream conversion parameters: the substream's `time_base`
(`tbNum/tbDen` seconds per tick), its `r_frame_rate` (`frNum/frDen`
frames per second) and the probed start timestamp `m_startTimeStamp`.
AVRational components of a real stream are positive. -/
structure StreamParams where
  tbNum : Nat
  tbDen : Nat
  frNum : Nat
  frDen : Nat
  startTimeStamp : Int
  deriving DecidableEq, Repr

/-- `Stream::timeToTimeStamp` (FFFRStream.cpp:188-193):
`m_startTimeStamp + av_rescale_q(time, (1, AV_TIME_BASE), time_base)`. -/
def timeToTimeStamp (p : StreamParams) (time : Int) : Int :=
  p.startTimeStamp + avRescaleQ time 1 AV_TIME_BASE p.tbNum p.tbDen

/-- `Stream::timeStampToTime` (FFFRStream.cpp:195-200):
`av_rescale_q(timeStamp - m_startTimeStamp, time_base, (1, AV_TIME_BASE))`. -/
def timeStampToTime (p : StreamParams) (timeStamp : Int) : Int :=
  avRescaleQ (timeStamp - p.startTimeStamp) p.tbNum p.tbDen 1 AV_TIME_BASE

/-- `Stream::frameToTimeStamp` (FFFRStream.cpp:202-207):
`m_startTimeStamp + av_rescale_q(frame, av_inv_q(r_frame_rate), time_base)`. -/
def frameToTimeStamp (p : StreamParams) (frame : Int) : Int :=
  p.startTimeStamp + avRescaleQ frame p.frDen p.frNum p.tbNum p.tbDen

/-- `Stream::timeStampToFrame` (FFFRStream.cpp:209-213):
`av_rescale_q(timeStamp - m_startTimeStamp, r_frame_rate, av_inv_q(time_base))`. -/
def timeStampToFrame (p : StreamParams) (timeStamp : Int) : Int :=
  avRescaleQ (timeStamp - p.startTimeStamp) p.frNum p.frDen p.tbDen p.tbNum

/-- `Stream::frameToTime` (FFFRStream.cpp:215-218):
`av_rescale_q(frame, (AV_TIME_BASE, 1), r_frame_rate)`. -/
def frameToTime (p : StreamParams) (frame : Int) : Int :=
  avRescaleQ frame AV_TIME_BASE 1 p.frNum p.frDen

/-- `Stream::timeToFrame` (FFFRStream.cpp:220-223):
`av_rescale_q(time, (1, AV_TIME_BASE), av_inv_q(r_frame_rate))`. -/
def timeToFrame (p : StreamParams) (time : Int) : Int :=
  avRescaleQ time 1 AV_TIME_BASE p.frDen p.frNum

/-- `Stream::getFrameTime` (FFFRStream.cpp:105-108): `frameToTime(1)`. -/
def getFrameTime (p : StreamParams) : Int :=
  frameToTime p 1

/-- A decoded frame as the cursor observes it: the derived microsecond
timestamp and frame number computed by `decodeNextBlock`
(FFFRStream.cpp:288-293) and stored in the `Frame` value
(FFFRFrame.cpp:82-96). -/
structure Frame where
  timeStamp : Int
  frameNumber : Int
  deriving DecidableEq, Repr

/-- A default-constructed `Frame` (`make_shared<Frame>()`,
FFFRStream.cpp:311): the placeholder that replaces a popped slot.  Its
field values are never observed through the public API. -/
def emptyFrame : Frame :=
  { timeStamp := 0, frameNumber := 0 }

/-- The mutable state of a `Stream` (FFFRStream.h members as used by
FFFRStream.cpp): parameters, buffer length, the ping/pong buffers with
the ping read head, and the frame-seek latch.  `decodeCalls` and
`seekCalls` index into the oracle; `frameSeeks` counts the
frame-flagged demuxer seeks that were issued (an observation of the
demuxer call trace, written only at the `AVSEEK_FLAG_FRAME` call
site). -/
structure StreamState where
  params : StreamParams
  bufferLength : Nat
  bufferPing : List Frame
  bufferPingHead : Nat
  bufferPong : List Frame
  frameSeekSupported : Bool
  decodeCalls : Nat
  seekCalls : Nat
  frameSeeks : Nat
  deriving DecidableEq, Repr

/-- The external demuxer/decoder oracle.  `blocks n` is the outcome of
the `n`-th `decodeNextBlock` call: its boolean return value and the
contents it left in the pong buffer.  `seekResults n ts flags` is the
success of the `n`-th demuxer-level seek, issued with target `ts` and
the given flags (`0` for a plain seek, `8` = `AVSEEK_FLAG_FRAME`). -/
structure Env where
  blocks : Nat → Bool × List Frame
  seekResults : Nat → Int → Nat → Bool

/-- `Stream::decodeNextBlock` (FFFRStream.cpp:225-302), abstracted over
the demuxer/decoder: resets the pong buffer then fills it from the
external oracle, returning `false` exactly on a demuxer/decoder error
(the oracle chooses both the flag and the final pong contents; an EOF
return is `true` with a short or empty pong).  It touches no other
Stream state. -/
def decodeNextBlock (env : Env) (s : StreamState) : Bool × StreamState :=
  let r := env.blocks s.decodeCalls
  (r.1, { s with bufferPong := r.2, decodeCalls := s.decodeCalls + 1 })

/-- `Stream::popFrame` (FFFRStream.cpp:304-312): if
`m_bufferPingHead >= m_bufferPing.size()` log and return unchanged;
otherwise release the slot (`m_bufferPing[m_bufferPingHead++] =
make_shared<Frame>()`). -/
def popFrame (s : StreamState) : StreamState :=
  if s.bufferPingHead ≥ s.bufferPing.length then s
  else
    { s with
      bufferPing := s.bufferPing.set s.bufferPingHead emptyFrame
      bufferPingHead := s.bufferPingHead + 1 }

/-- `Stream::peekNextFrame` (FFFRStream.cpp:110-133).  The returned
`variant<bool, shared_ptr<Frame>>` is modelled as `Sum Bool Frame`;
every non-frame return site in the source returns `false`.  When
`m_bufferPingHead == m_bufferPing.size()` decode the next block, swap
ping and pong, reset the head and clear pong, and report `false` if
the refill failed or produced no frames; otherwise return
`m_bufferPing[m_bufferPingHead]` without advancing.  (The read is
modelled with `List.getElem?`; an out-of-range head, impossible under
the head ≤ length invariant, would be undefined behaviour in the
source and maps to the non-frame result here.) -/
def peekNextFrame (env : Env) (s : StreamState) : Sum Bool Frame × StreamState :=
  if s.bufferPingHead = s.bufferPing.length then
    let r := decodeNextBlock env s
    if r.1 then
      let s2 := { r.2 with
        bufferPing := r.2.bufferPong
        bufferPingHead := 0
        bufferPong := [] }
      if s2.bufferPing.length = 0 then (Sum.inl false, s2)
      else
        match s2.bufferPing[0]? with
        | some f => (Sum.inr f, s2)
        | none => (Sum.inl false, s2)
    else (Sum.inl false, r.2)
  else
    match s.bufferPing[s.bufferPingHead]? with
    | some f => (Sum.inr f, s)
    | none => (Sum.inl false, s)

/-- `Stream::getNextFrame` (FFFRStream.cpp:135-144): peek, and on a
frame result pop and return the peeked variant; on a non-frame result
return `false`. -/
def getNextFrame (env : Env) (s : StreamState) : Sum Bool Frame × StreamState :=
  let ret := peekNextFrame env s
  match ret.1 with
  | Sum.inl _ => (Sum.inl false, ret.2)
  | Sum.inr f => (Sum.inr f, popFrame ret.2)

/-- The inner loop of `Stream::getNextFrameSequence`
(FFFRStream.cpp:160-167): discard `n` frames, validating each with a
peek; report `false` as soon as a peek yields a non-frame result. -/
def dropFrames (env : Env) : Nat → StreamState → Bool × StreamState
  | 0, s => (true, s)
  | n + 1, s =>
    match peekNextFrame env s with
    | (Sum.inl _, s1) => (false, s1)
    | (Sum.inr _, s1) => dropFrames env n (popFrame s1)

/-- The main loop of `Stream::getNextFrameSequence`
(FFFRStream.cpp:151-175), carrying the running accumulator `start` and
the frames collected so far. -/
def seqLoop (env : Env) : List Int → Int → List Frame → StreamState →
    Sum Bool (List Frame) × StreamState
  | [], _, acc, s => (Sum.inr acc, s)
  | i :: rest, start, acc, s =>
    if i < start then (Sum.inl false, s)
    else
      match dropFrames env (i - start).toNat s with
      | (false, s1) => (Sum.inl false, s1)
      | (true, s1) =>
        match getNextFrame env s1 with
        | (Sum.inl _, s2) => (Sum.inl false, s2)
        | (Sum.inr f, s2) => seqLoop env rest (i + 1) (acc ++ [f]) s2

/-- `Stream::getNextFrameSequence` (FFFRStream.cpp:146-176). -/
def getNextFrameSequence (env : Env) (s : StreamState) (frameSequence : List Int) :
    Sum Bool (List Frame) × StreamState :=
  seqLoop env frameSequence 0 [] s

/-- The tier-1 walk of `Stream::seekInternal` (FFFRStream.cpp:323-340):
peek; fail on a non-frame result; stop when the requested timestamp is
at or before the peeked frame's, or strictly inside the frame's display
interval; otherwise pop and continue.  Fuelled; `none` means the fuel
ran out (the source loop has no intrinsic bound). -/
def seekWalkTime (env : Env) : Nat → Int → StreamState → Option (Bool × StreamState)
  | 0, _, _ => none
  | fuel + 1, timeStamp, s =>
    match peekNextFrame env s with
    | (Sum.inl _, s1) => some (false, s1)
    | (Sum.inr f, s1) =>
      if timeStamp ≤ f.timeStamp then some (true, s1)
      else if timeStamp > f.timeStamp ∧ timeStamp < f.timeStamp + getFrameTime s1.params then
        some (true, s1)
      else seekWalkTime env fuel timeStamp (popFrame s1)

/-- The tier-1 / tier-2a walk of `Stream::seekFrameInternal`
(FFFRStream.cpp:408-420 and 431-442, two textually identical loops):
peek; fail on a non-frame result; stop when the requested frame number
is at or before the peeked frame's; otherwise pop and continue. -/
def seekWalkFrame (env : Env) : Nat → Int → StreamState → Option (Bool × StreamState)
  | 0, _, _ => none
  | fuel + 1, frame, s =>
    match peekNextFrame env s with
    | (Sum.inl _, s1) => some (false, s1)
    | (Sum.inr f, s1) =>
      if frame ≤ f.frameNumber then some (true, s1)
      else seekWalkFrame env fuel frame (popFrame s1)

/-- The in-buffer condition of `Stream::seekInternal`
(FFFRStream.cpp:320-321): the head frame exists and the target lies in
`[ping[head].timeStamp, ping.back().timeStamp]`. -/
abbrev inBufferTime (s : StreamState) (timeStamp : Int) : Prop :=
  s.bufferPingHead < s.bufferPing.length ∧
    timeStamp ≥ (s.bufferPing.getD s.bufferPingHead emptyFrame).timeStamp ∧
    timeStamp ≤ (s.bufferPing.getLastD emptyFrame).timeStamp

/-- The short-forward condition of `Stream::seekInternal`
(FFFRStream.cpp:346-350): the target is after `ping.back()` but within
`frameToTime(25)`. -/
abbrev forwardTime (s : StreamState) (timeStamp : Int) : Prop :=
  timeStamp > (s.bufferPing.getLastD emptyFrame).timeStamp ∧
    timeStamp ≤ (s.bufferPing.getLastD emptyFrame).timeStamp + frameToTime s.params 25

/-- `Stream::seekInternal` (FFFRStream.cpp:314-397).  Fuelled: the
self-recursion and the inner walk consume fuel; `none` means the fuel
ran out.  The demuxer-level seek (FFFRStream.cpp:377-384) consults the
oracle with the computed `localTimeStamp` and no flags. -/
def seekInternal (env : Env) : Nat → Int → Bool → StreamState → Option (Bool × StreamState)
  | 0, _, _, _ => none
  | fuel + 1, timeStamp, recursed, s =>
    if 0 < s.bufferPing.length ∧ inBufferTime s timeStamp then
      seekWalkTime env fuel timeStamp s
    else if 0 < s.bufferPing.length ∧ forwardTime s timeStamp then
      match peekNextFrame env { s with bufferPing := [], bufferPingHead := 0 } with
      | (Sum.inl _, s1) => some (false, s1)
      | (Sum.inr _, s1) => seekInternal env fuel timeStamp true s1
    else if recursed then some (false, s)
    else
      let localTimeStamp := timeToTimeStamp s.params timeStamp + s.params.startTimeStamp
      let ok := env.seekResults s.seekCalls localTimeStamp 0
      let s1 := { s with seekCalls := s.seekCalls + 1 }
      if ok = false then some (false, s1)
      else
        match peekNextFrame env { s1 with bufferPing := [], bufferPingHead := 0 } with
        | (Sum.inl _, s2) => some (false, s2)
        | (Sum.inr _, s2) => seekInternal env fuel timeStamp true s2

/-- The in-buffer condition of `Stream::seekFrameInternal`
(FFFRStream.cpp:405-406). -/
abbrev inBufferFrame (s : StreamState) (frame : Int) : Prop :=
  s.bufferPingHead < s.bufferPing.length ∧
    frame ≥ (s.bufferPing.getD s.bufferPingHead emptyFrame).frameNumber ∧
    frame ≤ (s.bufferPing.getLastD emptyFrame).frameNumber

/-- The short-forward condition of `Stream::seekFrameInternal`
(FFFRStream.cpp:426-430): after `ping.back()` but within
`2 * m_bufferLength` frames. -/
abbrev forwardFrame (s : StreamState) (frame : Int) : Prop :=
  frame > (s.bufferPing.getLastD emptyFrame).frameNumber ∧
    frame ≤ (s.bufferPing.getLastD emptyFrame).frameNumber + (s.bufferLength * 2 : Nat)

/-- `Stream::seekFrameInternal` (FFFRStream.cpp:399-489).  The
frame-flagged demuxer seek (FFFRStream.cpp:462-476) consults the oracle
with target `frame + timeStampToFrame(m_startTimeStamp)` and flags
`8` (`AVSEEK_FLAG_FRAME`), and is the only writer of the `frameSeeks`
trace counter.  The fallback block (FFFRStream.cpp:448-460) latches
`m_frameSeekSupported` and retries through `Stream::seek`, i.e.
`seekInternal` with `recursed = false`. -/
def seekFrameInternal (env : Env) : Nat → Int → Bool → StreamState → Option (Bool × StreamState)
  | 0, _, _, _ => none
  | fuel + 1, frame, recursed, s =>
    if 0 < s.bufferPing.length ∧ inBufferFrame s frame then
      seekWalkFrame env fuel frame s
    else if 0 < s.bufferPing.length ∧ forwardFrame s frame then
      seekWalkFrame env fuel frame s
    else if recursed ∨ s.frameSeekSupported = false then
      if s.frameSeekSupported then
        seekInternal env fuel (frameToTime s.params frame) false
          { s with frameSeekSupported := false }
      else if recursed then some (false, s)
      else seekInternal env fuel (frameToTime s.params frame) false s
    else
      let frameInternal := frame + timeStampToFrame s.params s.params.startTimeStamp
      let ok := env.seekResults s.seekCalls frameInternal 8
      let s1 := { s with seekCalls := s.seekCalls + 1, frameSeeks := s.frameSeeks + 1 }
      if ok = false then
        seekInternal env fuel (frameToTime s1.params frame) false
          { s1 with frameSeekSupported := false }
      else
        match peekNextFrame env { s1 with bufferPing := [], bufferPingHead := 0 } with
        | (Sum.inl _, s2) => some (false, s2)
        | (Sum.inr _, s2) => seekFrameInternal env fuel frame true s2

/-- The Stream state right after construction (FFFRStream.cpp:27-42):
empty buffers, head 0, no oracle calls made.  The frame-seek latch is
declared with a default initializer in the header `FFFRStream.h`,
which is not part of the sources under review.
Modelled from the spec: `frame_seek_supported` "starts true"
(`FFFRStream.h` member initializer is missing from src). -/
def initialState (p : StreamParams) (bufferLength : Nat) : StreamState :=
  { params := p
    bufferLength := bufferLength
    bufferPing := []
    bufferPingHead := 0
    bufferPong := []
    frameSeekSupported := true
    decodeCalls := 0
    seekCalls := 0
    frameSeeks := 0 }

/-- A demuxer packet as observed by the probe scans: its stream index
and its `pts` / `dts` fields (either may be `AV_NOPTS_VALUE`). -/
structure Packet where
  streamIndex : Int
  pts : Int
  dts : Int
  deriving DecidableEq, Repr

/-- The packet scan shared by `Stream::getStreamFrames`
(FFFRStream.cpp:584-595) and `Stream::getStreamDuration`
(FFFRStream.cpp:632-643): for every packet of the target substream,
`found = packet.dts; if (found != AV_NOPTS_VALUE) found = packet.pts;`
and the accumulator keeps the maximum of the accepted candidates
(seeded with `m_startTimeStamp`). -/
def scanMaxTimeStamp (index : Int) : Int → List Packet → Int
  | acc, [] => acc
  | acc, pkt :: rest =>
    if pkt.streamIndex = index then
      let found := pkt.dts
      let found := if found ≠ AV_NOPTS_VALUE then pkt.pts else found
      scanMaxTimeStamp index (if found > acc then found else acc) rest
    else scanMaxTimeStamp index acc rest

/-- The candidate-selection rule the probe scans were intended to apply,
as `Stream::getStreamStartTime` does (FFFRStream.cpp:528-531) and as the
spec words it: the packet's `pts` when it is set, else its `dts`.
Written from the spec ("tracking the maximum of `pts`-or-`dts`") for
comparison with `scanMaxTimeStamp`. -/
def scanMaxTimeStampSpec (index : Int) : Int → List Packet → Int
  | acc, [] => acc
  | acc, pkt :: rest =>
    if pkt.streamIndex = index then
      let found := if pkt.pts = AV_NOPTS_VALUE then pkt.dts else pkt.pts
      scanMaxTimeStampSpec index (if found > acc then found else acc) rest
    else scanMaxTimeStampSpec index acc rest

/-- The container/substream metadata and demuxer behaviour consumed by
the one-shot probes `getStreamFrames` / `getStreamDuration`:
`m_formatContext->duration`, `stream->nb_frames`, `stream->duration`,
the success of the fallback `av_seek_frame`, and the packets the
fallback scan reads. -/
structure ProbeInput where
  params : StreamParams
  index : Int
  formatDuration : Int
  nbFrames : Int
  streamDuration : Int
  seekOk : Bool
  packets : List Packet
  deriving Repr

/-- The duration-derived frame count of `Stream::getStreamFrames`
(FFFRStream.cpp:551-552): `av_rescale_q(m_formatContext->duration,
r_frame_rate, av_inv_q((1, AV_TIME_BASE)))`. -/
def durationFrames (inp : ProbeInput) : Int :=
  avRescaleQ inp.formatDuration inp.params.frNum inp.params.frDen AV_TIME_BASE 1

/-- `Stream::getStreamFrames` (FFFRStream.cpp:545-602): (a) when the
container declares a positive duration and the duration-derived count
differs from `stream->nb_frames` by more than 1, return that count
minus `timeStampToFrame(2 * m_startTimeStamp)`; (b) else
`stream->nb_frames` minus the same correction, if positive; (c) else
`timeStampToFrame(stream->duration)`, if positive; (d) else the
fallback scan, returning 0 if the backward seek fails and
`1 + timeStampToFrame(max)` otherwise. -/
def getStreamFrames (inp : ProbeInput) : Int :=
  if inp.formatDuration > 0 ∧ 1 < |durationFrames inp - inp.nbFrames| then
    durationFrames inp - timeStampToFrame inp.params (inp.params.startTimeStamp * 2)
  else if inp.nbFrames > 0 then
    inp.nbFrames - timeStampToFrame inp.params (inp.params.startTimeStamp * 2)
  else if inp.streamDuration > 0 then
    timeStampToFrame inp.params inp.streamDuration
  else if inp.seekOk = false then 0
  else
    1 + timeStampToFrame inp.params
      (scanMaxTimeStamp inp.index inp.params.startTimeStamp inp.packets)

/-- `Stream::getStreamDuration` (FFFRStream.cpp:604-650): (a) the
container duration minus `timeStampToTime(2 * m_startTimeStamp)` when
positive; (b) else `timeStampToTime(stream->duration)` if positive;
(c) else the fallback scan, returning 0 if the backward seek fails and
`timeStampToTime(max) + frameToTime(1)` otherwise. -/
def getStreamDuration (inp : ProbeInput) : Int :=
  if inp.formatDuration > 0 then
    inp.formatDuration - timeStampToTime inp.params (inp.params.startTimeStamp * 2)
  else if inp.streamDuration > 0 then
    timeStampToTime inp.params inp.streamDuration
  else if inp.seekOk = false then 0
  else
    timeStampToTime inp.params
      (scanMaxTimeStamp inp.index inp.params.startTimeStamp inp.packets) +
      frameToTime inp.params 1

/-- `Frame::getAspectRatio` (FFFRFrame.cpp:115-119): always
`width / height` (anamorphic handling is an explicit TODO in the
source).  Doubles are modelled as exact rationals; the claims under
review concern which quantity is returned, not its binary rounding. -/
def frameGetAspectRatio (width height : Nat) : ℚ :=
  (width : ℚ) / (height : ℚ)

/-- `Stream::getAspectRatio` (FFFRStream.cpp:82-88): the declared
`display_aspect_ratio` when its numerator is non-zero
(`av_q2d` = num/den), else `width / height`. -/
def streamGetAspectRatio (darNum darDen : Int) (width height : Nat) : ℚ :=
  if darNum ≠ 0 then (darNum : ℚ) / (darDen : ℚ)
  else (width : ℚ) / (height : ℚ)

/-- The aspect-ratio rule the claim states for the `Frame` accessor,
written from the spec ("display aspect if the container declares one
with non-zero numerator, else width/height") for comparison with
`frameGetAspectRatio`. -/
def frameAspectRatioSpec (darNum darDen : Int) (width height : Nat) : ℚ :=
  if darNum ≠ 0 then (darNum : ℚ) / (darDen : ℚ)
  else (width : ℚ) / (height : ℚ)

/-- The spec's description of `get_next`, written from the spec for the
refinement claim C1: "`peek_next()` followed by, on a frame result,
`pop()`"; a non-frame result from the peek is returned as is, with no
state change beyond the peek itself. -/
def getNextSpec (env : Env) (s : StreamState) : Sum Bool Frame × StreamState :=
  match peekNextFrame env s with
  | (Sum.inr f, s1) => (Sum.inr f, popFrame s1)
  | (Sum.inl b, s1) => (Sum.inl b, s1)

/-- The ascending-list condition of `get_sequence`, exactly as the
claim phrases it: with a running accumulator `start` (initially 0,
becoming `i + 1` after each element), every element must satisfy
`i ≥ start`. -/
def validSeq : Int → List Int → Bool
  | _, [] => true
  | start, i :: rest => if i < start then false else validSeq (i + 1) rest

/-- Parameters of an ordinary stream (1/15360 s tick, 30 fps, start
timestamp 42), used by concrete witnesses. -/
def witParams : StreamParams :=
  { tbNum := 1, tbDen := 15360, frNum := 30, frDen := 1, startTimeStamp := 42 }

/-- Parameters refuting the unconditional round-trip law: a 0.1 s
timestamp tick against a 1000 fps frame rate, so consecutive frames
collapse onto the same container timestamp. -/
def ceParams : StreamParams :=
  { tbNum := 1, tbDen := 10, frNum := 1000, frDen := 1, startTimeStamp := 0 }

/-- Probe input refuting C5's branch condition: container duration
1 s at 30 fps (duration-derived count 30) against a declared
`nb_frames` of 10 — they differ by more than one frame. -/
def ceFramesInput : ProbeInput :=
  { params := { tbNum := 1, tbDen := 1000000, frNum := 30, frDen := 1, startTimeStamp := 0 }
    index := 0
    formatDuration := 1000000
    nbFrames := 10
    streamDuration := 0
    seekOk := true
    packets := [] }

/-- Parameters for the C6 failing input: 1/30 s tick, 30 fps, start 0
(so `timeStampToFrame` is the identity on timestamps). -/
def bugParams : StreamParams :=
  { tbNum := 1, tbDen := 30, frNum := 30, frDen := 1, startTimeStamp := 0 }

/-- The C6 failing input: no usable metadata, a successful backward
seek, and a single substream packet whose `pts` is unset while its
`dts` is 100. -/
def bugFramesInput : ProbeInput :=
  { params := bugParams
    index := 0
    formatDuration := 0
    nbFrames := 0
    streamDuration := 0
    seekOk := true
    packets := [{ streamIndex := 0, pts := AV_NOPTS_VALUE, dts := 100 }] }

/-- An oracle whose every decode block succeeds with one frame
(timestamp 0, frame number 0) and whose every demuxer seek succeeds. -/
def witEnv : Env :=
  { blocks := fun _ => (true, [{ timeStamp := 0, frameNumber := 0 }])
    seekResults := fun _ _ _ => true }

/-- An oracle whose every decode block fails. -/
def witEnvErr : Env :=
  { blocks := fun _ => (false, [])
    seekResults := fun _ _ _ => true }

/-- An oracle whose every decode block reports end of stream: success
with an empty pong buffer. -/
def witEnvEof : Env :=
  { blocks := fun _ => (true, [])
    seekResults := fun _ _ _ => true }

/-- A freshly constructed stream state with buffer length 1. -/
def witState : StreamState := initialState witParams 1

/-- `witState` after one successful peek against `witEnv`: the decoded
block was swapped into ping. -/
def witStateAfterPeek : StreamState :=
  { params := witParams
    bufferLength := 1
    bufferPing := [{ timeStamp := 0, frameNumber := 0 }]
    bufferPingHead := 0
    bufferPong := []
    frameSeekSupported := true
    decodeCalls := 1
    seekCalls := 0
    frameSeeks := 0 }

/-- A stream state whose frame-seek latch has already fallen. -/
def witStateNoSeek : StreamState :=
  { initialState witParams 4 with frameSeekSupported := false }

/-- A stream state with one unconsumed buffered frame, for the pop
witness. -/
def witPopState : StreamState :=
  { initialState witParams 2 with bufferPing := [{ timeStamp := 7, frameNumber := 3 }] }

/-! ## Helper lemmas about the cursor operations -/

/-- Every non-frame result of `peekNextFrame` carries the value
`false`: all three non-frame return sites of the source return
`false`. -/
theorem peek_inl_false (env : Env) (s : StreamState) {b : Bool} {s' : StreamState}
    (h : peekNextFrame env s = (Sum.inl b, s')) : b = false := by
  simp only [peekNextFrame, decodeNextBlock] at h
  split at h
  · split at h
    · split at h
      · cases h; rfl
      · split at h
        · cases h
        · cases h; rfl
    · cases h; rfl
  · split at h
    · cases h
    · cases h; rfl

/-- After a successful peek the returned frame is the one at the ping
head of the resulting state, and that head is in range. -/
theorem peek_inr_char (env : Env) (s : StreamState) {f : Frame} {s' : StreamState}
    (h : peekNextFrame env s = (Sum.inr f, s')) :
    s'.bufferPingHead < s'.bufferPing.length ∧
      s'.bufferPing[s'.bufferPingHead]? = some f := by
  simp only [peekNextFrame, decodeNextBlock] at h
  split at h
  · split at h
    · split at h
      · cases h
      · rename_i hlen
        split at h
        · rename_i g hg
          cases h
          refine ⟨?_, by simpa using hg⟩
          dsimp at hlen ⊢
          omega
        · cases h
    · cases h
  · rename_i hne
    split at h
    · rename_i g hg
      cases h
      refine ⟨?_, hg⟩
      by_contra hge
      rw [List.getElem?_eq_none (Nat.le_of_not_lt hge)] at hg
      cases hg
    · cases h

/-- A non-frame peek makes `getNextFrame` return the non-frame value
`false`. -/
theorem getNext_inl_of_peek_inl (env : Env) (s : StreamState) {b : Bool}
    (h : (peekNextFrame env s).1 = Sum.inl b) :
    (getNextFrame env s).1 = Sum.inl false := by
  unfold getNextFrame
  rcases hp : peekNextFrame env s with ⟨r, s1⟩
  rw [hp] at h
  cases r with
  | inl c => rfl
  | inr f => cases h

/-! ## Claims C1, C2, C8, C10 -/

/-- C1.  For every oracle and every Stream state, `getNextFrame` is
exactly `peekNextFrame` followed, on a frame result, by `popFrame`:
the frame `get_next` returns is the frame the peek returned, and on a
non-frame result `get_next` returns that result with no state change
beyond the peek. -/
theorem fffr_C1 (env : Env) (s : StreamState) :
    getNextFrame env s = getNextSpec env s := by
  unfold getNextFrame getNextSpec
  rcases h : peekNextFrame env s with ⟨r, s1⟩
  cases r with
  | inl b =>
    have hb := peek_inl_false env s h
    subst hb
    rfl
  | inr f => rfl

/-- C2.  Peek idempotence: a successful `peekNextFrame` is a fixed
point — repeating it returns the same frame (hence identical timestamp
and frame number) and the same state; and `peekNextFrame` never
advances the cursor: the ping head is either untouched or reset to 0
by a refill swap. -/
theorem fffr_C2 (env : Env) (s : StreamState) :
    (∀ f s', peekNextFrame env s = (Sum.inr f, s') →
        peekNextFrame env s' = (Sum.inr f, s'))
  ∧ ((peekNextFrame env s).2.bufferPingHead = s.bufferPingHead ∨
      (peekNextFrame env s).2.bufferPingHead = 0) := by
  constructor
  · intro f s' h
    obtain ⟨hlt, hget⟩ := peek_inr_char env s h
    unfold peekNextFrame
    rw [if_neg (Nat.ne_of_lt hlt), hget]
  · simp only [peekNextFrame, decodeNextBlock]
    split
    · split
      · split
        · simp
        · split <;> simp
      · simp
    · split <;> simp

/-- C8.  `popFrame` with the head strictly inside the ping buffer
releases exactly the slot at the head (replacing it by a
default-constructed Frame) and increments the head by exactly 1; with
the head at the end of the buffer it is a soft error leaving the state
unchanged. -/
theorem fffr_C8 (s : StreamState) :
    (s.bufferPingHead < s.bufferPing.length →
      popFrame s = { s with
        bufferPing := s.bufferPing.set s.bufferPingHead emptyFrame
        bufferPingHead := s.bufferPingHead + 1 })
  ∧ (s.bufferPingHead = s.bufferPing.length → popFrame s = s) := by
  constructor
  · intro h
    unfold popFrame
    rw [if_neg (by omega)]
  · intro h
    unfold popFrame
    rw [if_pos (by omega)]

/-- C10.  With the ping buffer exhausted, a failed refill
(decode error) and an end-of-stream refill (success with no frames)
produce the same non-frame return value `false` from both
`peekNextFrame` and `getNextFrame`: the caller cannot distinguish
end-of-stream from a decode failure through the returned value. -/
theorem fffr_C10 (envErr envEof : Env) (s : StreamState) (pl : List Frame)
    (hhead : s.bufferPingHead = s.bufferPing.length)
    (herr : envErr.blocks s.decodeCalls = (false, pl))
    (heof : envEof.blocks s.decodeCalls = (true, [])) :
    (peekNextFrame envErr s).1 = Sum.inl false ∧
    (peekNextFrame envEof s).1 = Sum.inl false ∧
    (getNextFrame envErr s).1 = (getNextFrame envEof s).1 := by
  have h1 : (peekNextFrame envErr s).1 = Sum.inl false := by
    simp only [peekNextFrame, decodeNextBlock]
    rw [if_pos hhead, herr]
    simp
  have h2 : (peekNextFrame envEof s).1 = Sum.inl false := by
    simp only [peekNextFrame, decodeNextBlock]
    rw [if_pos hhead, heof]
    simp
  exact ⟨h1, h2, by
    rw [getNext_inl_of_peek_inl envErr s h1, getNext_inl_of_peek_inl envEof s h2]⟩

/-- Witness for C2 at a concrete input: after one successful peek from
a fresh state, peeking again returns the same frame and state. -/
theorem fffr_C2_witness :
    peekNextFrame witEnv witStateAfterPeek =
      (Sum.inr { timeStamp := 0, frameNumber := 0 }, witStateAfterPeek) :=
  (fffr_C2 witEnv witState).1 { timeStamp := 0, frameNumber := 0 } witStateAfterPeek
    (by decide)

/-- Witness for C8 at a concrete input: popping a single buffered
frame replaces the slot and moves the head to 1. -/
theorem fffr_C8_witness :
    popFrame witPopState =
      { witPopState with bufferPing := [emptyFrame], bufferPingHead := 1 } :=
  (fffr_C8 witPopState).1 (by decide)

/-- Witness for C10 at a concrete input: a fresh state against an
always-failing and an always-EOF oracle. -/
theorem fffr_C10_witness :
    (peekNextFrame witEnvErr witState).1 = Sum.inl false ∧
    (peekNextFrame witEnvEof witState).1 = Sum.inl false ∧
    (getNextFrame witEnvErr witState).1 = (getNextFrame witEnvEof witState).1 :=
  fffr_C10 witEnvErr witEnvEof witState [] (by decide) (by decide) (by decide)

/-! ## Claims C5, C6, C7, C9 -/

/-- C9 counterexample: on a 720×576 frame whose container declares a
4:3 display aspect ratio, the `Frame` accessor returns 720/576 = 5/4,
not the declared 4/3 the claim requires. -/
theorem fffr_C9_counterexample :
    frameGetAspectRatio 720 576 ≠ frameAspectRatioSpec 4 3 720 576 := by
  unfold frameGetAspectRatio frameAspectRatioSpec
  norm_num

/-- C9 (amended).  The `Frame` aspect-ratio accessor always returns
width divided by height (anamorphic handling is a TODO in the source);
the declared-display-aspect branch lives in the `Stream` accessor,
which returns the declared ratio exactly when its numerator is
non-zero and width/height otherwise. -/
theorem fffr_C9 (darNum darDen : Int) (width height : Nat) :
    frameGetAspectRatio width height = (width : ℚ) / (height : ℚ)
  ∧ (darNum ≠ 0 →
      streamGetAspectRatio darNum darDen width height = (darNum : ℚ) / (darDen : ℚ))
  ∧ (darNum = 0 →
      streamGetAspectRatio darNum darDen width height = frameGetAspectRatio width height) := by
  refine ⟨rfl, fun h => ?_, fun h => ?_⟩ <;>
    simp [streamGetAspectRatio, frameGetAspectRatio, h]

/-- Witness for C9 at a concrete input: a declared 4:3 ratio is
returned by the `Stream` accessor. -/
theorem fffr_C9_witness :
    streamGetAspectRatio 4 3 720 576 = (4 : ℚ) / 3 :=
  (fffr_C9 4 3 720 576).2.1 (by norm_num)

/-- C5 counterexample: with a duration-derived count of 30 and a
declared `nb_frames` of 10 — differing by more than one frame — the
probe returns the duration-derived count, not the declared count the
claim's fall-through requires. -/
theorem fffr_C5_counterexample :
    1 < |durationFrames ceFramesInput - ceFramesInput.nbFrames| ∧
    ceFramesInput.nbFrames > 0 ∧
    getStreamFrames ceFramesInput =
      durationFrames ceFramesInput -
        timeStampToFrame ceFramesInput.params (ceFramesInput.params.startTimeStamp * 2) ∧
    getStreamFrames ceFramesInput ≠
      ceFramesInput.nbFrames -
        timeStampToFrame ceFramesInput.params (ceFramesInput.params.startTimeStamp * 2) := by
  decide

/-- C5 (amended).  With a positive container duration the probe
returns the duration-derived count (minus the
`timeStampToFrame(2 * startTimeStamp)` correction) exactly when that
count differs from the substream's declared frame count by more than
1 frame; when the two agree to within 1 frame it falls through to the
declared count (if positive), minus the same correction. -/
theorem fffr_C5 (inp : ProbeInput) :
    (inp.formatDuration > 0 → 1 < |durationFrames inp - inp.nbFrames| →
      getStreamFrames inp =
        durationFrames inp - timeStampToFrame inp.params (inp.params.startTimeStamp * 2))
  ∧ (inp.formatDuration > 0 → |durationFrames inp - inp.nbFrames| ≤ 1 → inp.nbFrames > 0 →
      getStreamFrames inp =
        inp.nbFrames - timeStampToFrame inp.params (inp.params.startTimeStamp * 2)) := by
  constructor
  · intro h1 h2
    unfold getStreamFrames
    rw [if_pos ⟨h1, h2⟩]
  · intro h1 h2 h3
    unfold getStreamFrames
    rw [if_neg fun hc => absurd hc.2 (not_lt.mpr h2), if_pos h3]

/-- Witness for C5 (amended) at a concrete input. -/
theorem fffr_C5_witness :
    getStreamFrames ceFramesInput =
      durationFrames ceFramesInput -
        timeStampToFrame ceFramesInput.params (ceFramesInput.params.startTimeStamp * 2) :=
  (fffr_C5 ceFramesInput).1 (by decide) (by decide)

/-- C6 (code bug).  At the failing input — a substream packet with
`pts` unset and `dts = 100` and no usable metadata — the probe's scan
discards the packet (it tests `dts` for validity but then reads
`pts`), so `getStreamFrames` returns 1, while the pts-else-dts rule
the claim states (and that `getStreamStartTime` implements) tracks
100 and would give 101.  A packet with a valid `pts` but unset `dts`
is likewise discarded by the code and kept by the claimed rule. -/
theorem fffr_C6 :
    getStreamFrames bugFramesInput = 1 ∧
    scanMaxTimeStamp 0 0 bugFramesInput.packets = 0 ∧
    scanMaxTimeStampSpec 0 0 bugFramesInput.packets = 100 ∧
    1 + timeStampToFrame bugParams 100 = 101 ∧
    scanMaxTimeStamp 0 0 [{ streamIndex := 0, pts := 50, dts := AV_NOPTS_VALUE }] = 0 ∧
    scanMaxTimeStampSpec 0 0 [{ streamIndex := 0, pts := 50, dts := AV_NOPTS_VALUE }] = 50 := by
  decide

/-- If the index list violates the running ascending check, the
sequence loop returns the error value `false` from whichever point it
stops at. -/
theorem seqLoop_invalid (env : Env) :
    ∀ (l : List Int) (start : Int) (acc : List Frame) (s : StreamState),
      validSeq start l = false → (seqLoop env l start acc s).1 = Sum.inl false := by
  intro l
  induction l with
  | nil =>
    intro start acc s h
    simp [validSeq] at h
  | cons i rest ih =>
    intro start acc s h
    simp only [seqLoop]
    by_cases hcmp : i < start
    · rw [if_pos hcmp]
    · rw [if_neg hcmp]
      have hrest : validSeq (i + 1) rest = false := by
        simp only [validSeq] at h
        rwa [if_neg hcmp] at h
      split
      · rfl
      · split
        · rfl
        · exact ih _ _ _ hrest

/-- A successful sequence result implies the list passed the running
ascending check and contributed exactly one frame per index beyond the
accumulator. -/
theorem seqLoop_inr (env : Env) :
    ∀ (l : List Int) (start : Int) (acc : List Frame) (s : StreamState)
      (fs : List Frame) (s' : StreamState),
      seqLoop env l start acc s = (Sum.inr fs, s') →
      validSeq start l = true ∧ fs.length = acc.length + l.length := by
  intro l
  induction l with
  | nil =>
    intro start acc s fs s' h
    simp only [seqLoop] at h
    cases h
    exact ⟨rfl, by simp⟩
  | cons i rest ih =>
    intro start acc s fs s' h
    simp only [seqLoop] at h
    by_cases hcmp : i < start
    · rw [if_pos hcmp] at h
      cases h
    · rw [if_neg hcmp] at h
      split at h
      · cases h
      · split at h
        · cases h
        · obtain ⟨hv, hl⟩ := ih _ _ _ _ _ h
          refine ⟨?_, ?_⟩
          · simp only [validSeq]
            rwa [if_neg hcmp]
          · simp only [List.length_append, List.length_cons, List.length_nil] at hl ⊢
            omega

/-- C7.  `getNextFrameSequence` returns the error value whenever the
index list is not strictly ascending in the claim's sense (some
element below the running accumulator, which starts at 0 and becomes
`i + 1` after each element); and a successful result implies the list
was strictly ascending and carries exactly one frame per index, in
order. -/
theorem fffr_C7 (env : Env) (s : StreamState) (seq : List Int) :
    (validSeq 0 seq = false →
      (getNextFrameSequence env s seq).1 = Sum.inl false)
  ∧ (∀ fs s', getNextFrameSequence env s seq = (Sum.inr fs, s') →
      validSeq 0 seq = true ∧ fs.length = seq.length) := by
  constructor
  · intro h
    exact seqLoop_invalid env seq 0 [] s h
  · intro fs s' h
    obtain ⟨hv, hl⟩ := seqLoop_inr env seq 0 [] s fs s' h
    exact ⟨hv, by simpa using hl⟩

/-- Witness for C7 at a concrete input: the non-ascending list
`[1, 0]` is rejected. -/
theorem fffr_C7_witness :
    (getNextFrameSequence witEnv witState [1, 0]).1 = Sum.inl false :=
  (fffr_C7 witEnv witState [1, 0]).1 (by decide)

/-! ## Claim C3 -/

/-- The round-trip law at the integer level: with `0 < C ≤ B`,
rescaling `n` up by `B/C` with round-half-away-from-zero and back down
by `C/B` recovers `n`. -/
theorem rescale_roundTrip (n B C : Nat) (hC : 0 < C) (hCB : C ≤ B) :
    ((n * B + C / 2) / C * C + B / 2) / B = n := by
  rcases Nat.eq_or_lt_of_le hCB with hEq | hLt
  · subst hEq
    have h2 : C / 2 / C = 0 := Nat.div_eq_of_lt (by omega)
    have h1 : (n * C + C / 2) / C = n := by
      rw [Nat.mul_comm n C, Nat.mul_add_div hC, h2, Nat.add_zero]
    rw [h1, Nat.mul_comm n C, Nat.mul_add_div hC, h2, Nat.add_zero]
  · have key := Nat.div_add_mod (n * B + C / 2) C
    have hr : (n * B + C / 2) % C < C := Nat.mod_lt _ hC
    generalize hq : (n * B + C / 2) / C = q at key ⊢
    generalize hrr : (n * B + C / 2) % C = r at key hr
    apply Nat.div_eq_of_lt_le
    · rw [Nat.mul_comm q C]
      omega
    · rw [Nat.mul_comm q C, Nat.succ_mul]
      omega

/-- C3 counterexample: with a 0.1 s timestamp tick and a 1000 fps
frame rate (and start timestamp 0), frame 1 rescales to container
timestamp 0, which rescales back to frame 0 — the unconditional
round-trip law fails. -/
theorem fffr_C3_counterexample :
    timeStampToFrame ceParams (frameToTimeStamp ceParams 1) ≠ 1 := by
  decide

/-- C3 (amended).  The round-trip law
`timeStampToFrame (frameToTimeStamp n) = n` holds for every frame
index `n ≥ 0` whenever one frame interval spans at least one timestamp
tick, i.e. `frNum * tbNum ≤ frDen * tbDen` (with the product positive);
without that proviso consecutive frame indices collapse onto one
container timestamp and the law fails (see the counterexample). -/
theorem fffr_C3 (p : StreamParams) (n : Nat)
    (hpos : 0 < p.frNum * p.tbNum)
    (hle : p.frNum * p.tbNum ≤ p.frDen * p.tbDen) :
    timeStampToFrame p (frameToTimeStamp p (n : Int)) = (n : Int) := by
  have h := rescale_roundTrip n (p.frDen * p.tbDen) (p.frNum * p.tbNum) hpos hle
  simp only [timeStampToFrame, frameToTimeStamp, avRescaleQ, avRescaleRnd]
  rw [if_pos (Int.natCast_nonneg n), add_sub_cancel_left,
    if_pos (Int.natCast_nonneg _), Int.toNat_natCast, Int.toNat_natCast]
  exact_mod_cast h

/-- Witness for C3 (amended) at a concrete input: ordinary parameters
(1/15360 s tick, 30 fps), frame 3 survives the round trip. -/
theorem fffr_C3_witness :
    timeStampToFrame witParams (frameToTimeStamp witParams ((3 : Nat) : Int)) = ((3 : Nat) : Int) :=
  fffr_C3 witParams 3 (by decide) (by decide)

/-! ## Claim C4: the frame-seek latch -/

/-- `peekNextFrame` touches only the buffers and the decode counter:
the latch, the seek counters and the stream parameters are
preserved. -/
theorem peek_seek_fields (env : Env) (s : StreamState) :
    (peekNextFrame env s).2.frameSeekSupported = s.frameSeekSupported ∧
    (peekNextFrame env s).2.seekCalls = s.seekCalls ∧
    (peekNextFrame env s).2.frameSeeks = s.frameSeeks ∧
    (peekNextFrame env s).2.params = s.params ∧
    (peekNextFrame env s).2.bufferLength = s.bufferLength := by
  simp only [peekNextFrame, decodeNextBlock]
  split
  · split
    · split
      · simp
      · split <;> simp
    · simp
  · split <;> simp

/-- `peek_seek_fields`, phrased on an equation. -/
theorem peek_fields_of_eq (env : Env) {s : StreamState} {r : Sum Bool Frame}
    {s' : StreamState} (h : peekNextFrame env s = (r, s')) :
    s'.frameSeekSupported = s.frameSeekSupported ∧
    s'.seekCalls = s.seekCalls ∧
    s'.frameSeeks = s.frameSeeks ∧
    s'.params = s.params ∧
    s'.bufferLength = s.bufferLength := by
  have hp := peek_seek_fields env s
  rw [h] at hp
  exact hp

/-- `popFrame` touches only the ping buffer and its head. -/
theorem popFrame_fields (s : StreamState) :
    (popFrame s).frameSeekSupported = s.frameSeekSupported ∧
    (popFrame s).seekCalls = s.seekCalls ∧
    (popFrame s).frameSeeks = s.frameSeeks ∧
    (popFrame s).params = s.params ∧
    (popFrame s).bufferLength = s.bufferLength := by
  unfold popFrame
  split <;> simp

/-- `getNextFrame` preserves the latch and the seek trace. -/
theorem getNext_fields (env : Env) (s : StreamState) :
    (getNextFrame env s).2.frameSeekSupported = s.frameSeekSupported ∧
    (getNextFrame env s).2.frameSeeks = s.frameSeeks := by
  unfold getNextFrame
  rcases hp : peekNextFrame env s with ⟨r, s1⟩
  obtain ⟨p1, _, p3, _, _⟩ := peek_fields_of_eq env hp
  cases r with
  | inl b => exact ⟨p1, p3⟩
  | inr f =>
    obtain ⟨q1, _, q3, _, _⟩ := popFrame_fields s1
    exact ⟨q1.trans p1, q3.trans p3⟩

/-- `dropFrames` preserves the latch and the seek trace. -/
theorem dropFrames_fields (env : Env) :
    ∀ (n : Nat) (s : StreamState),
      (dropFrames env n s).2.frameSeekSupported = s.frameSeekSupported ∧
      (dropFrames env n s).2.frameSeeks = s.frameSeeks := by
  intro n
  induction n with
  | zero => intro s; exact ⟨rfl, rfl⟩
  | succ n ih =>
    intro s
    simp only [dropFrames]
    rcases hp : peekNextFrame env s with ⟨r, s1⟩
    obtain ⟨p1, _, p3, _, _⟩ := peek_fields_of_eq env hp
    cases r with
    | inl b => exact ⟨p1, p3⟩
    | inr f =>
      obtain ⟨d1, d3⟩ := ih (popFrame s1)
      obtain ⟨q1, _, q3, _, _⟩ := popFrame_fields s1
      exact ⟨d1.trans (q1.trans p1), d3.trans (q3.trans p3)⟩

/-- The sequence loop preserves the latch and the seek trace. -/
theorem seqLoop_fields (env : Env) :
    ∀ (l : List Int) (start : Int) (acc : List Frame) (s : StreamState),
      (seqLoop env l start acc s).2.frameSeekSupported = s.frameSeekSupported ∧
      (seqLoop env l start acc s).2.frameSeeks = s.frameSeeks := by
  intro l
  induction l with
  | nil => intro start acc s; exact ⟨rfl, rfl⟩
  | cons i rest ih =>
    intro start acc s
    simp only [seqLoop]
    split
    · exact ⟨rfl, rfl⟩
    · split
      · rename_i s1 heq
        have hd := dropFrames_fields env (i - start).toNat s
        rw [heq] at hd
        exact hd
      · rename_i s1 heq
        have hd := dropFrames_fields env (i - start).toNat s
        rw [heq] at hd
        split
        · rename_i s2 heq2
          have hg := getNext_fields env s1
          rw [heq2] at hg
          exact ⟨hg.1.trans hd.1, hg.2.trans hd.2⟩
        · rename_i f s2 heq2
          have hg := getNext_fields env s1
          rw [heq2] at hg
          obtain ⟨l1, l2⟩ := ih (i + 1) (acc ++ [f]) s2
          exact ⟨l1.trans (hg.1.trans hd.1), l2.trans (hg.2.trans hd.2)⟩

/-- The time-seek walk preserves the latch and the seek counters. -/
theorem seekWalkTime_fields (env : Env) :
    ∀ (fuel : Nat) (ts : Int) (s : StreamState) (b : Bool) (s' : StreamState),
      seekWalkTime env fuel ts s = some (b, s') →
      s'.frameSeekSupported = s.frameSeekSupported ∧
      s'.seekCalls = s.seekCalls ∧
      s'.frameSeeks = s.frameSeeks := by
  intro fuel
  induction fuel with
  | zero => intro ts s b s' h; cases h
  | succ fuel ih =>
    intro ts s b s' h
    rcases hp : peekNextFrame env s with ⟨r, s1⟩
    cases r with
    | inl bb =>
      simp only [seekWalkTime, hp] at h
      cases h
      obtain ⟨p1, p2, p3, _, _⟩ := peek_fields_of_eq env hp
      exact ⟨p1, p2, p3⟩
    | inr f =>
      simp only [seekWalkTime, hp] at h
      split at h
      · cases h
        obtain ⟨p1, p2, p3, _, _⟩ := peek_fields_of_eq env hp
        exact ⟨p1, p2, p3⟩
      · split at h
        · cases h
          obtain ⟨p1, p2, p3, _, _⟩ := peek_fields_of_eq env hp
          exact ⟨p1, p2, p3⟩
        · obtain ⟨w1, w2, w3⟩ := ih _ _ _ _ h
          obtain ⟨p1, p2, p3, _, _⟩ := peek_fields_of_eq env hp
          obtain ⟨q1, q2, q3, _, _⟩ := popFrame_fields s1
          exact ⟨w1.trans (q1.trans p1), w2.trans (q2.trans p2), w3.trans (q3.trans p3)⟩

/-- The frame-seek walk preserves the latch and the seek counters. -/
theorem seekWalkFrame_fields (env : Env) :
    ∀ (fuel : Nat) (frame : Int) (s : StreamState) (b : Bool) (s' : StreamState),
      seekWalkFrame env fuel frame s = some (b, s') →
      s'.frameSeekSupported = s.frameSeekSupported ∧
      s'.seekCalls = s.seekCalls ∧
      s'.frameSeeks = s.frameSeeks := by
  intro fuel
  induction fuel with
  | zero => intro frame s b s' h; cases h
  | succ fuel ih =>
    intro frame s b s' h
    rcases hp : peekNextFrame env s with ⟨r, s1⟩
    cases r with
    | inl bb =>
      simp only [seekWalkFrame, hp] at h
      cases h
      obtain ⟨p1, p2, p3, _, _⟩ := peek_fields_of_eq env hp
      exact ⟨p1, p2, p3⟩
    | inr f =>
      simp only [seekWalkFrame, hp] at h
      split at h
      · cases h
        obtain ⟨p1, p2, p3, _, _⟩ := peek_fields_of_eq env hp
        exact ⟨p1, p2, p3⟩
      · obtain ⟨w1, w2, w3⟩ := ih _ _ _ _ h
        obtain ⟨p1, p2, p3, _, _⟩ := peek_fields_of_eq env hp
        obtain ⟨q1, q2, q3, _, _⟩ := popFrame_fields s1
        exact ⟨w1.trans (q1.trans p1), w2.trans (q2.trans p2), w3.trans (q3.trans p3)⟩

/-- `seekInternal` never writes the frame-seek latch or issues a
frame-flagged demuxer seek: the latch value and the `frameSeeks` trace
of any result state equal the input's. -/
theorem seekInternal_fields (env : Env) :
    ∀ (fuel : Nat) (ts : Int) (recursed : Bool) (s : StreamState) (b : Bool) (s' : StreamState),
      seekInternal env fuel ts recursed s = some (b, s') →
      s'.frameSeekSupported = s.frameSeekSupported ∧ s'.frameSeeks = s.frameSeeks := by
  intro fuel
  induction fuel with
  | zero => intro ts recursed s b s' h; cases h
  | succ fuel ih =>
    intro ts recursed s b s' h
    simp only [seekInternal] at h
    split at h
    · obtain ⟨w1, _, w3⟩ := seekWalkTime_fields env fuel ts s b s' h
      exact ⟨w1, w3⟩
    · split at h
      · split at h
        · rename_i s1 heq
          cases h
          obtain ⟨p1, _, p3, _, _⟩ := peek_fields_of_eq env heq
          exact ⟨p1, p3⟩
        · rename_i s1 heq
          obtain ⟨i1, i3⟩ := ih ts true s1 b s' h
          obtain ⟨p1, _, p3, _, _⟩ := peek_fields_of_eq env heq
          exact ⟨i1.trans p1, i3.trans p3⟩
      · split at h
        · cases h
          exact ⟨rfl, rfl⟩
        · split at h
          · cases h
            exact ⟨rfl, rfl⟩
          · split at h
            · rename_i s2 heq
              cases h
              obtain ⟨p1, _, p3, _, _⟩ := peek_fields_of_eq env heq
              exact ⟨p1, p3⟩
            · rename_i s2 heq
              obtain ⟨i1, i3⟩ := ih ts true s2 b s' h
              obtain ⟨p1, _, p3, _, _⟩ := peek_fields_of_eq env heq
              exact ⟨i1.trans p1, i3.trans p3⟩

/-- Once the latch is down, `seekFrameInternal` keeps it down and
issues no frame-flagged demuxer seek.  (With the latch down, the only
reachable branches are the buffer walks and the time-seek fallback;
the frame-flagged seek site requires the latch to be up.) -/
theorem seekFrame_latch_false (env : Env) (fuel : Nat) (frame : Int) (recursed : Bool)
    (s : StreamState) (b : Bool) (s' : StreamState)
    (h : seekFrameInternal env fuel frame recursed s = some (b, s'))
    (hs : s.frameSeekSupported = false) :
    s'.frameSeekSupported = false ∧ s'.frameSeeks = s.frameSeeks := by
  cases fuel with
  | zero => cases h
  | succ fuel =>
    simp only [seekFrameInternal] at h
    split at h
    · obtain ⟨w1, _, w3⟩ := seekWalkFrame_fields env fuel frame s b s' h
      exact ⟨w1.trans hs, w3⟩
    · split at h
      · obtain ⟨w1, _, w3⟩ := seekWalkFrame_fields env fuel frame s b s' h
        exact ⟨w1.trans hs, w3⟩
      · split at h
        · split at h
          · rename_i hsup
            exact absurd hsup (by simp [hs])
          · split at h
            · cases h
              exact ⟨hs, rfl⟩
            · obtain ⟨i1, i3⟩ := seekInternal_fields env fuel _ false s b s' h
              exact ⟨i1.trans hs, i3⟩
        · rename_i hcond
          exact absurd (Or.inr hs) hcond

/-- The latch is monotone: a run of `seekFrameInternal` that ends with
the latch up must have started with it up. -/
theorem seekFrame_supported_mono (env : Env) (fuel : Nat) (frame : Int) (recursed : Bool)
    (s : StreamState) (b : Bool) (s' : StreamState)
    (h : seekFrameInternal env fuel frame recursed s = some (b, s'))
    (h' : s'.frameSeekSupported = true) : s.frameSeekSupported = true := by
  by_cases hs : s.frameSeekSupported
  · exact hs
  · obtain ⟨h1, _⟩ := seekFrame_latch_false env fuel frame recursed s b s' h (by simpa using hs)
    rw [h1] at h'
    cases h'

/-- C4.  The frame-seek latch: (1) it starts `true` at construction;
(2) `seekFrameInternal` never raises it; (3) `seekInternal` never
touches it; (4) the read operations never touch it; (5) once it is
down no frame-flagged demuxer seek is ever issued again; (6) once it
is down, a non-recursed `seekFrame` whose buffer tiers do not apply is
exactly the time seek `seekInternal (frameToTime n)`; (7) when the
demuxer rejects the frame-flagged seek the latch falls and the call
retries as the time seek; (8) when the recursed locate falls through
to the fallback with the latch up, the latch falls and the call
retries as the time seek. -/
theorem fffr_C4 :
    ((∀ (p : StreamParams) (n : Nat), (initialState p n).frameSeekSupported = true)
  ∧ (∀ (env : Env) (fuel : Nat) (frame : Int) (recursed : Bool) (s : StreamState)
       (b : Bool) (s' : StreamState),
       seekFrameInternal env fuel frame recursed s = some (b, s') →
       s'.frameSeekSupported = true → s.frameSeekSupported = true)
  ∧ (∀ (env : Env) (fuel : Nat) (ts : Int) (recursed : Bool) (s : StreamState)
       (b : Bool) (s' : StreamState),
       seekInternal env fuel ts recursed s = some (b, s') →
       s'.frameSeekSupported = s.frameSeekSupported)
  ∧ (∀ (env : Env) (s : StreamState),
       (peekNextFrame env s).2.frameSeekSupported = s.frameSeekSupported ∧
       (getNextFrame env s).2.frameSeekSupported = s.frameSeekSupported ∧
       (popFrame s).frameSeekSupported = s.frameSeekSupported ∧
       (∀ seq, (getNextFrameSequence env s seq).2.frameSeekSupported = s.frameSeekSupported))
  ∧ (∀ (env : Env) (fuel : Nat) (frame : Int) (recursed : Bool) (s : StreamState)
       (b : Bool) (s' : StreamState),
       seekFrameInternal env fuel frame recursed s = some (b, s') →
       s.frameSeekSupported = false → s'.frameSeeks = s.frameSeeks)
  ∧ (∀ (env : Env) (fuel : Nat) (frame : Int) (s : StreamState),
       s.frameSeekSupported = false →
       ¬(0 < s.bufferPing.length ∧ inBufferFrame s frame) →
       ¬(0 < s.bufferPing.length ∧ forwardFrame s frame) →
       seekFrameInternal env (fuel + 1) frame false s =
         seekInternal env fuel (frameToTime s.params frame) false s)
  ∧ (∀ (env : Env) (fuel : Nat) (frame : Int) (s : StreamState),
       s.frameSeekSupported = true →
       ¬(0 < s.bufferPing.length ∧ inBufferFrame s frame) →
       ¬(0 < s.bufferPing.length ∧ forwardFrame s frame) →
       env.seekResults s.seekCalls
         (frame + timeStampToFrame s.params s.params.startTimeStamp) 8 = false →
       seekFrameInternal env (fuel + 1) frame false s =
         seekInternal env fuel (frameToTime s.params frame) false
           { s with seekCalls := s.seekCalls + 1, frameSeeks := s.frameSeeks + 1,
                    frameSeekSupported := false })
  ∧ (∀ (env : Env) (fuel : Nat) (frame : Int) (s : StreamState),
       s.frameSeekSupported = true →
       ¬(0 < s.bufferPing.length ∧ inBufferFrame s frame) →
       ¬(0 < s.bufferPing.length ∧ forwardFrame s frame) →
       seekFrameInternal env (fuel + 1) frame true s =
         seekInternal env fuel (frameToTime s.params frame) false
           { s with frameSeekSupported := false })) := by
  refine ⟨fun p n => rfl, ?_, ?_, ?_, ?_, ?_, ?_, ?_⟩
  · intro env fuel frame recursed s b s' h h'
    exact seekFrame_supported_mono env fuel frame recursed s b s' h h'
  · intro env fuel ts recursed s b s' h
    exact (seekInternal_fields env fuel ts recursed s b s' h).1
  · intro env s
    exact ⟨(peek_seek_fields env s).1, (getNext_fields env s).1, (popFrame_fields s).1,
      fun seq => (seqLoop_fields env seq 0 [] s).1⟩
  · intro env fuel frame recursed s b s' h hs
    exact (seekFrame_latch_false env fuel frame recursed s b s' h hs).2
  · intro env fuel frame s hs hni hnf
    simp only [seekFrameInternal]
    rw [if_neg hni, if_neg hnf]
    simp [hs]
  · intro env fuel frame s hs hni hnf hseek
    simp only [seekFrameInternal]
    rw [if_neg hni, if_neg hnf]
    rw [if_neg (by simp [hs])]
    simp [hseek]
  · intro env fuel frame s hs hni hnf
    simp only [seekFrameInternal]
    rw [if_neg hni, if_neg hnf]
    simp [hs]

/-- Witness for C4 at a concrete input: with the latch already down,
an empty buffer and any oracle, a non-recursed frame seek is exactly
the corresponding time seek. -/
theorem fffr_C4_witness :
    seekFrameInternal witEnv 3 5 false witStateNoSeek =
      seekInternal witEnv 2 (frameToTime witParams 5) false witStateNoSeek :=
  fffr_C4.2.2.2.2.2.1 witEnv 2 5 witStateNoSeek rfl (by decide) (by decide)

end FFFR
